import Mathlib

/-!
Verification of the layered International Standard Atmosphere model
(`international_standard_atmosphere.py`).

The Python code computes with IEEE floats; the embedding models that
arithmetic over the real numbers, so algebraic identities that the spec
states "within numerical tolerance" are settled exactly.  `math.pow` on a
positive base agrees with `Real.rpow`; every claim below only evaluates
powers at positive bases.  A raised exception (the `assert` in
`get_temperature_by_altitude`, the two `ValueError`s in the model lookups,
an `IndexError` from `layers[-1]` on an empty model) is modelled as
`Option.none`.
-/

/-- `ISALayer.grav_const = 9.8066` (class attribute). -/
noncomputable def grav_const : ℝ := 9.8066

/-- The slack `1e-10` allowed by the assert in `ISALayer.get_temperature_by_altitude`. -/
noncomputable def slack : ℝ := 1e-10

/-- One atmospheric layer: stored fields of `ISALayer.__init__`
(`height`, `tbot`, `base_press`, `gas_const`) plus the derived cached
`ttop = base_temp + lapse_rate * height`. -/
structure ISALayer where
  height : ℝ
  tbot : ℝ
  base_press : ℝ
  gas_const : ℝ
  ttop : ℝ

/-- `ISALayer.__init__(height, lapse_rate, base_temp, base_press, gas_const)`:
stores the fields and derives `ttop`. -/
noncomputable def ISALayer.make (height lapse_rate base_temp base_press gas_const : ℝ) :
    ISALayer :=
  ⟨height, base_temp, base_press, gas_const, base_temp + lapse_rate * height⟩

/-- `ISALayer.get_temperature_by_altitude`: asserts
`-slack <= altitude <= height + slack`, then interpolates linearly.
The failed assert is modelled as `none`. -/
noncomputable def ISALayer.get_temperature_by_altitude (L : ISALayer) (altitude : ℝ) :
    Option ℝ :=
  if -slack ≤ altitude ∧ altitude ≤ L.height + slack then
    some (L.tbot + (L.ttop - L.tbot) * (altitude / L.height))
  else
    none

/-- `ISALayer.get_pressure_by_altitude`:
`base_press * (1 + altitude*ttop/(tbot^2*height)) ** (-grav_const*tbot*height/(gas_const*ttop))`.
No domain check in the source. -/
noncomputable def ISALayer.get_pressure_by_altitude (L : ISALayer) (altitude : ℝ) : ℝ :=
  L.base_press *
    (1 + altitude * L.ttop / (L.tbot ^ 2 * L.height)) ^
      (-grav_const * L.tbot * L.height / (L.gas_const * L.ttop))

/-- `ISALayer.get_altitude_by_pressure`:
`co * ((base_press/pressure) ** exp - 1)` with `co = tbot^2*height/ttop` and
`exp = gas_const*ttop/(grav_const*tbot*height)`.  No domain check in the source. -/
noncomputable def ISALayer.get_altitude_by_pressure (L : ISALayer) (pressure : ℝ) : ℝ :=
  L.tbot ^ 2 * L.height / L.ttop *
    ((L.base_press / pressure) ^ (L.gas_const * L.ttop / (grav_const * L.tbot * L.height)) - 1)

/-- `ISALayer.get_temperature_by_pressure`: composes the altitude inverse with
the (checked) temperature interpolation. -/
noncomputable def ISALayer.get_temperature_by_pressure (L : ISALayer) (pressure : ℝ) :
    Option ℝ :=
  L.get_temperature_by_altitude (L.get_altitude_by_pressure pressure)

/-- `ISAModel`: an ordered list of layers, bottom first. -/
structure ISAModel where
  layers : List ISALayer

/-- `ISAModel.height` property: sum of the layer heights. -/
noncomputable def ISAModel.height (M : ISAModel) : ℝ :=
  (M.layers.map ISALayer.height).sum

/-- The loop of `ISAModel._get_layer_by_altitude`: accumulate heights into
`alt`, return the first layer whose cumulative top is `>= altitude` together
with the altitude relative to that layer's bottom; `none` models the
`ValueError` raised when the loop falls through. -/
noncomputable def find_layer_alt (altitude : ℝ) : ℝ → List ISALayer → Option (ISALayer × ℝ)
  | _, [] => none
  | alt, layer :: rest =>
    if altitude ≤ alt + layer.height then
      some (layer, altitude - (alt + layer.height) + layer.height)
    else
      find_layer_alt altitude (alt + layer.height) rest

/-- The loop of `ISAModel._get_layer_by_pressure`: return the first layer
(bottom-up) whose top pressure is `<=` the query pressure, paired with its
position in the list (the position is where `get_altitude_by_pressure`'s
identity scan `l != layer` stops); `none` models the `ValueError`. -/
noncomputable def find_layer_press (pressure : ℝ) : List ISALayer → Option (ℕ × ISALayer)
  | [] => none
  | layer :: rest =>
    if layer.get_pressure_by_altitude layer.height ≤ pressure then
      some (0, layer)
    else
      (find_layer_press pressure rest).map (fun ik => (ik.1 + 1, ik.2))

/-- `ISAModel.get_temperature_by_altitude`: locate the layer, delegate.  Either
the lookup `ValueError` or the layer's failed assert yields `none`. -/
noncomputable def ISAModel.get_temperature_by_altitude (M : ISAModel) (altitude : ℝ) :
    Option ℝ :=
  match find_layer_alt altitude 0 M.layers with
  | none => none
  | some la => la.1.get_temperature_by_altitude la.2

/-- `ISAModel.get_pressure_by_altitude`: locate the layer, delegate
(the layer pressure formula is unchecked). -/
noncomputable def ISAModel.get_pressure_by_altitude (M : ISAModel) (altitude : ℝ) :
    Option ℝ :=
  (find_layer_alt altitude 0 M.layers).map (fun la => la.1.get_pressure_by_altitude la.2)

/-- `ISAModel.get_temperature_by_pressure`: locate the layer by pressure, delegate. -/
noncomputable def ISAModel.get_temperature_by_pressure (M : ISAModel) (pressure : ℝ) :
    Option ℝ :=
  match find_layer_press pressure M.layers with
  | none => none
  | some il => il.2.get_temperature_by_pressure pressure

/-- `ISAModel.get_altitude_by_pressure`: locate the layer by pressure, invert
inside that layer, and add the heights of all layers strictly below it. -/
noncomputable def ISAModel.get_altitude_by_pressure (M : ISAModel) (pressure : ℝ) :
    Option ℝ :=
  (find_layer_press pressure M.layers).map
    (fun il => il.2.get_altitude_by_pressure pressure +
      ((M.layers.take il.1).map ISALayer.height).sum)

/-- Python's `explicit or derived` used by `add_layer` for the optional base
values: a missing (`None`) or zero (falsy) explicit argument falls back to
the derived value. -/
noncomputable def truthy_or (explicit : Option ℝ) (derived : Option ℝ) : Option ℝ :=
  match explicit with
  | some v => if v = 0 then derived else some v
  | none => derived

/-- `self.layers[-1].get_temperature_by_altitude(self.layers[-1].height)`;
`none` models both the `IndexError` on an empty model and a failed assert. -/
noncomputable def ISAModel.derived_temp (M : ISAModel) : Option ℝ :=
  match M.layers.getLast? with
  | none => none
  | some L => L.get_temperature_by_altitude L.height

/-- `self.layers[-1].get_pressure_by_altitude(self.layers[-1].height)`;
`none` models the `IndexError` on an empty model. -/
noncomputable def ISAModel.derived_press (M : ISAModel) : Option ℝ :=
  match M.layers.getLast? with
  | none => none
  | some L => some (L.get_pressure_by_altitude L.height)

/-- `ISAModel.add_layer(height, lapse_rate, base_temp=None, base_press=None)`:
resolve the base values (explicit-if-truthy, else previous layer's top
values), then append `ISALayer(height, lapse_rate, base_temp, base_press)`
with the default gas constant `0.28704`. -/
noncomputable def ISAModel.add_layer (M : ISAModel) (height lapse_rate : ℝ)
    (base_temp base_press : Option ℝ) : Option ISAModel :=
  match truthy_or base_temp M.derived_temp, truthy_or base_press M.derived_press with
  | some bt, some bp =>
      some (ISAModel.mk (M.layers ++ [ISALayer.make height lapse_rate bt bp 0.28704]))
  | _, _ => none

/-- `ISAModel.standard_config()`: the seven canonical layers. -/
noncomputable def ISAModel.standard_config : Option ISAModel :=
  (((((((ISAModel.mk []).add_layer 11.019 (-6.5) (some (273.15 + 19.0))
    (some 101325)).bind
    (fun m => m.add_layer (20.063 - 11.019) 0.0 none none)).bind
    (fun m => m.add_layer (32.162 - 20.063) 1.0 none none)).bind
    (fun m => m.add_layer (47.350 - 32.162) 2.8 none none)).bind
    (fun m => m.add_layer (51.413 - 47.350) 0.0 none none)).bind
    (fun m => m.add_layer (71.802 - 51.413) (-2.8) none none)).bind
    (fun m => m.add_layer (84.852 - 71.802) (-2.0) none none)

/-- Positivity of a layer's stored quantities — the data-model invariant of
the spec (`height > 0`, temperatures and pressure strictly positive, the
specific gas constant positive). -/
def ISALayer.Pos (L : ISALayer) : Prop :=
  0 < L.height ∧ 0 < L.tbot ∧ 0 < L.ttop ∧ 0 < L.base_press ∧ 0 < L.gas_const

/-- Pressure continuity of two consecutive layers: the upper layer's base
pressure is the lower layer's pressure at its own top. -/
def pressure_matched (A B : ISALayer) : Prop :=
  B.base_press = A.get_pressure_by_altitude A.height

/-- A model is well formed when it has at least one layer, every layer
satisfies the data-model positivity invariant, and consecutive layers are
pressure matched (which `add_layer` establishes by construction). -/
def ISAModel.WellFormed (M : ISAModel) : Prop :=
  M.layers ≠ [] ∧ (∀ L ∈ M.layers, L.Pos) ∧ List.Chain' pressure_matched M.layers

/-- Top-of-layer pressure. -/
noncomputable def ISALayer.top_press (L : ISALayer) : ℝ :=
  L.get_pressure_by_altitude L.height

/-- Boundary continuity of two consecutive layers as observable through the
query functions: temperature and pressure computed from the layer below at
its top equal those computed from the layer above at its bottom. -/
def boundary_matched (A B : ISALayer) : Prop :=
  B.get_temperature_by_altitude 0 = A.get_temperature_by_altitude A.height ∧
    B.get_pressure_by_altitude 0 = A.get_pressure_by_altitude A.height

/-! ### Basic layer lemmas -/

lemma grav_const_pos : 0 < grav_const := by
  unfold grav_const; norm_num

lemma slack_pos : 0 < slack := by
  unfold slack; norm_num

/-- At the layer bottom the pressure formula returns the base pressure. -/
lemma ISALayer.press_at_zero (L : ISALayer) :
    L.get_pressure_by_altitude 0 = L.base_press := by
  unfold ISALayer.get_pressure_by_altitude
  rw [zero_mul, zero_div, add_zero, Real.one_rpow, mul_one]

/-- The exponent of the layer pressure formula is negative for a positive layer. -/
lemma ISALayer.exp_neg (L : ISALayer) (hP : L.Pos) :
    -grav_const * L.tbot * L.height / (L.gas_const * L.ttop) < 0 := by
  obtain ⟨hh, ht, hu, hp, hr⟩ := hP
  have h1 : 0 < grav_const * L.tbot * L.height :=
    mul_pos (mul_pos grav_const_pos ht) hh
  have h2 : 0 < L.gas_const * L.ttop := mul_pos hr hu
  have : -grav_const * L.tbot * L.height = -(grav_const * L.tbot * L.height) := by ring
  rw [this]
  exact div_neg_of_neg_of_pos (neg_neg_of_pos h1) h2

/-- The base of the layer pressure formula, as a function of altitude. -/
noncomputable def ISALayer.frac (L : ISALayer) (altitude : ℝ) : ℝ :=
  1 + altitude * L.ttop / (L.tbot ^ 2 * L.height)

lemma ISALayer.frac_pos_of_nonneg (L : ISALayer) (hP : L.Pos) {a : ℝ} (ha : 0 ≤ a) :
    0 < L.frac a := by
  obtain ⟨hh, ht, hu, hp, hr⟩ := hP
  unfold ISALayer.frac
  have : 0 ≤ a * L.ttop / (L.tbot ^ 2 * L.height) := by positivity
  linarith

lemma ISALayer.frac_strictMono (L : ISALayer) (hP : L.Pos) {a b : ℝ} (hab : a < b) :
    L.frac a < L.frac b := by
  obtain ⟨hh, ht, hu, hp, hr⟩ := hP
  unfold ISALayer.frac
  have hc : 0 < L.ttop / (L.tbot ^ 2 * L.height) := by positivity
  have h1 : a * L.ttop / (L.tbot ^ 2 * L.height) = a * (L.ttop / (L.tbot ^ 2 * L.height)) := by
    ring
  have h2 : b * L.ttop / (L.tbot ^ 2 * L.height) = b * (L.ttop / (L.tbot ^ 2 * L.height)) := by
    ring
  rw [h1, h2]
  have := mul_lt_mul_of_pos_right hab hc
  linarith

lemma ISALayer.press_eq_frac (L : ISALayer) (a : ℝ) :
    L.get_pressure_by_altitude a =
      L.base_press * L.frac a ^ (-grav_const * L.tbot * L.height / (L.gas_const * L.ttop)) :=
  rfl

/-- Within a positive layer, pressure is strictly decreasing in altitude
(for any altitudes with nonnegative lower end, not just inside the layer). -/
lemma ISALayer.press_strictAnti (L : ISALayer) (hP : L.Pos) {a b : ℝ}
    (ha : 0 ≤ a) (hab : a < b) :
    L.get_pressure_by_altitude b < L.get_pressure_by_altitude a := by
  rw [ISALayer.press_eq_frac, ISALayer.press_eq_frac]
  have hfa : 0 < L.frac a := L.frac_pos_of_nonneg hP ha
  have hfab : L.frac a < L.frac b := L.frac_strictMono hP hab
  have he : -grav_const * L.tbot * L.height / (L.gas_const * L.ttop) < 0 := L.exp_neg hP
  exact mul_lt_mul_of_pos_left (Real.rpow_lt_rpow_of_neg hfa hfab he) hP.2.2.2.1

/-- Non-strict version of `press_strictAnti`. -/
lemma ISALayer.press_antitone (L : ISALayer) (hP : L.Pos) {a b : ℝ}
    (ha : 0 ≤ a) (hab : a ≤ b) :
    L.get_pressure_by_altitude b ≤ L.get_pressure_by_altitude a := by
  rcases eq_or_lt_of_le hab with h | h
  · rw [h]
  · exact le_of_lt (L.press_strictAnti hP ha h)

/-- In a positive layer the computed pressure is positive for any altitude
with positive formula base. -/
lemma ISALayer.press_pos (L : ISALayer) (hp : 0 < L.base_press) {a : ℝ}
    (hf : 0 < L.frac a) :
    0 < L.get_pressure_by_altitude a := by
  rw [ISALayer.press_eq_frac]
  exact mul_pos hp (Real.rpow_pos_of_pos hf _)

/-- Strictly below the base of a positive layer the computed pressure lies strictly
above the base pressure: the formula extrapolates. -/
lemma ISALayer.press_gt_base_of_neg (L : ISALayer) (hP : L.Pos) {a : ℝ}
    (ha : a < 0) (hf : 0 < L.frac a) :
    L.base_press < L.get_pressure_by_altitude a := by
  obtain ⟨hh, ht, hu, hp, hr⟩ := hP
  rw [ISALayer.press_eq_frac]
  have hlt : L.frac a < 1 := by
    unfold ISALayer.frac
    have : a * L.ttop / (L.tbot ^ 2 * L.height) < 0 := by
      apply div_neg_of_neg_of_pos
      · exact mul_neg_of_neg_of_pos ha hu
      · positivity
    linarith
  have h1 : 1 < L.frac a ^ (-grav_const * L.tbot * L.height / (L.gas_const * L.ttop)) := by
    rw [Real.one_lt_rpow_iff_of_pos hf]
    exact Or.inr ⟨hlt, L.exp_neg ⟨hh, ht, hu, hp, hr⟩⟩
  nlinarith

/-- For a query pressure strictly above the base pressure the altitude
formula produces a strictly negative altitude. -/
lemma ISALayer.alt_neg_of_press_gt_base (L : ISALayer) (hP : L.Pos) {q : ℝ}
    (hq : L.base_press < q) :
    L.get_altitude_by_pressure q < 0 := by
  obtain ⟨hh, ht, hu, hp, hr⟩ := hP
  unfold ISALayer.get_altitude_by_pressure
  have hq0 : 0 < q := lt_trans hp hq
  have hco : 0 < L.tbot ^ 2 * L.height / L.ttop := by positivity
  have hdiv0 : 0 ≤ L.base_press / q := le_of_lt (div_pos hp hq0)
  have hdiv1 : L.base_press / q < 1 := (div_lt_one hq0).mpr hq
  have hexp : 0 < L.gas_const * L.ttop / (grav_const * L.tbot * L.height) := by
    have := grav_const_pos
    positivity
  have hpow : (L.base_press / q) ^ (L.gas_const * L.ttop / (grav_const * L.tbot * L.height))
      < 1 := Real.rpow_lt_one hdiv0 hdiv1 hexp
  apply mul_neg_of_pos_of_neg hco
  linarith

/-- The layer altitude formula is the exact inverse of the layer pressure
formula (in real arithmetic), for nonnegative local altitudes. -/
lemma ISALayer.roundtrip (L : ISALayer) (hP : L.Pos) {a : ℝ} (ha : 0 ≤ a) :
    L.get_altitude_by_pressure (L.get_pressure_by_altitude a) = a := by
  obtain ⟨hh, ht, hu, hp, hr⟩ := hP
  have hg := grav_const_pos
  have hf : 0 < L.frac a := L.frac_pos_of_nonneg ⟨hh, ht, hu, hp, hr⟩ ha
  rw [ISALayer.press_eq_frac]
  unfold ISALayer.get_altitude_by_pressure
  have hpow_pos : (0:ℝ) <
      L.frac a ^ (-grav_const * L.tbot * L.height / (L.gas_const * L.ttop)) :=
    Real.rpow_pos_of_pos hf _
  have hdiv : L.base_press / (L.base_press *
      L.frac a ^ (-grav_const * L.tbot * L.height / (L.gas_const * L.ttop))) =
      (L.frac a ^ (-grav_const * L.tbot * L.height / (L.gas_const * L.ttop)))⁻¹ := by
    rw [div_mul_eq_div_div, div_self (ne_of_gt hp), one_div]
  rw [hdiv, ← Real.rpow_neg (le_of_lt hf), ← Real.rpow_mul (le_of_lt hf)]
  have hexp : -(-grav_const * L.tbot * L.height / (L.gas_const * L.ttop)) *
      (L.gas_const * L.ttop / (grav_const * L.tbot * L.height)) = 1 := by
    field_simp
  rw [hexp, Real.rpow_one]
  unfold ISALayer.frac
  field_simp
  ring

/-! ### Lemmas about the altitude scan -/

lemma find_layer_alt_nil (a acc : ℝ) : find_layer_alt a acc [] = none := rfl

lemma find_layer_alt_cons_le {a acc : ℝ} {L : ISALayer} {rest : List ISALayer}
    (h : a ≤ acc + L.height) :
    find_layer_alt a acc (L :: rest) = some (L, a - acc) := by
  unfold find_layer_alt
  rw [if_pos h]
  congr 1
  rw [Prod.mk.injEq]
  exact ⟨rfl, by ring⟩

lemma find_layer_alt_cons_gt {a acc : ℝ} {L : ISALayer} {rest : List ISALayer}
    (h : ¬ a ≤ acc + L.height) :
    find_layer_alt a acc (L :: rest) = find_layer_alt a (acc + L.height) rest := by
  conv_lhs => unfold find_layer_alt
  rw [if_neg h]

/-- The accumulator only enters through the difference `a - acc`. -/
lemma find_layer_alt_shift (ls : List ISALayer) :
    ∀ a acc : ℝ, find_layer_alt a acc ls = find_layer_alt (a - acc) 0 ls := by
  induction ls with
  | nil => intro a acc; rfl
  | cons L rest ih =>
    intro a acc
    by_cases h : a ≤ acc + L.height
    · have h' : a - acc ≤ 0 + L.height := by linarith
      rw [find_layer_alt_cons_le h, find_layer_alt_cons_le h']
      congr 1
      rw [Prod.mk.injEq]
      exact ⟨rfl, by ring⟩
    · have h' : ¬ a - acc ≤ 0 + L.height := by intro hc; apply h; linarith
      rw [find_layer_alt_cons_gt h, find_layer_alt_cons_gt h',
        ih a (acc + L.height), ih (a - acc) (0 + L.height)]
      have harg : a - (acc + L.height) = a - acc - (0 + L.height) := by ring
      rw [harg]

/-- Cons-step of the altitude scan, in accumulator-free form. -/
lemma find_layer_alt_cons_gt' {a : ℝ} {L : ISALayer} {rest : List ISALayer}
    (h : ¬ a ≤ L.height) :
    find_layer_alt a 0 (L :: rest) = find_layer_alt (a - L.height) 0 rest := by
  have h0 : ¬ a ≤ 0 + L.height := by rw [zero_add]; exact h
  rw [find_layer_alt_cons_gt h0, find_layer_alt_shift]
  congr 1
  ring

lemma find_layer_alt_cons_le' {a : ℝ} {L : ISALayer} {rest : List ISALayer}
    (h : a ≤ L.height) :
    find_layer_alt a 0 (L :: rest) = some (L, a) := by
  have h0 : a ≤ 0 + L.height := by rw [zero_add]; exact h
  rw [find_layer_alt_cons_le h0, sub_zero]

/-- The scan falls through (raising `ValueError`) when the query altitude
exceeds the total height of nonnegative-height layers. -/
lemma find_layer_alt_none_of_gt (ls : List ISALayer) :
    ∀ a : ℝ, (∀ L ∈ ls, 0 ≤ L.height) → (ls.map ISALayer.height).sum < a →
      find_layer_alt a 0 ls = none := by
  induction ls with
  | nil => intro a _ _; rfl
  | cons L rest ih =>
    intro a hpos hsum
    rw [List.map_cons, List.sum_cons] at hsum
    have hrest : 0 ≤ (rest.map ISALayer.height).sum := by
      apply List.sum_nonneg
      intro x hx
      obtain ⟨y, hy, hxy⟩ := List.mem_map.mp hx
      rw [← hxy]
      exact hpos y (List.mem_cons_of_mem _ hy)
    have h : ¬ a ≤ L.height := by push_neg; linarith
    rw [find_layer_alt_cons_gt' h]
    apply ih _ (fun x hx => hpos x (List.mem_cons_of_mem _ hx))
    linarith

/-- The scan sends the total height of a model with positive layer heights
to the last layer, at local altitude equal to that layer's full height. -/
lemma find_layer_alt_total (ls : List ISALayer) :
    ls ≠ [] → (∀ L ∈ ls, 0 < L.height) →
      ∃ Ln, ls.getLast? = some Ln ∧
        find_layer_alt ((ls.map ISALayer.height).sum) 0 ls = some (Ln, Ln.height) := by
  induction ls with
  | nil => intro h _; exact absurd rfl h
  | cons L rest ih =>
    intro _ hpos
    rcases rest with _ | ⟨B, rest'⟩
    · refine ⟨L, rfl, ?_⟩
      have hsum : ([L].map ISALayer.height).sum = L.height := by simp
      rw [hsum, find_layer_alt_cons_le' (le_refl _)]
    · have hposr : ∀ X ∈ B :: rest', 0 < X.height :=
        fun X hX => hpos X (List.mem_cons_of_mem _ hX)
      obtain ⟨Ln, hlast, hfind⟩ := ih (by simp) hposr
      have hS : 0 < ((B :: rest').map ISALayer.height).sum := by
        apply List.sum_pos
        · intro x hx
          obtain ⟨y, hy, hxy⟩ := List.mem_map.mp hx
          rw [← hxy]; exact hposr y hy
        · simp
      refine ⟨Ln, ?_, ?_⟩
      · rw [List.getLast?_cons_cons]
        exact hlast
      · rw [List.map_cons, List.sum_cons]
        have h : ¬ L.height + ((B :: rest').map ISALayer.height).sum ≤ L.height := by
          push_neg; linarith
        rw [find_layer_alt_cons_gt' h]
        have harg : L.height + ((B :: rest').map ISALayer.height).sum - L.height =
            ((B :: rest').map ISALayer.height).sum := by ring
        rw [harg]
        exact hfind

/-! ### Lemmas about the pressure scan -/

lemma find_layer_press_nil (q : ℝ) : find_layer_press q [] = none := rfl

lemma find_layer_press_cons_le {q : ℝ} {L : ISALayer} {rest : List ISALayer}
    (h : L.top_press ≤ q) :
    find_layer_press q (L :: rest) = some (0, L) := by
  unfold ISALayer.top_press at h
  conv_lhs => unfold find_layer_press
  rw [if_pos h]

lemma find_layer_press_cons_gt {q : ℝ} {L : ISALayer} {rest : List ISALayer}
    (h : ¬ L.top_press ≤ q) :
    find_layer_press q (L :: rest) =
      (find_layer_press q rest).map (fun ik => (ik.1 + 1, ik.2)) := by
  unfold ISALayer.top_press at h
  conv_lhs => unfold find_layer_press
  rw [if_neg h]

/-- The pressure scan falls through when every layer's top pressure exceeds
the query pressure. -/
lemma find_layer_press_none (ls : List ISALayer) :
    ∀ q : ℝ, (∀ L ∈ ls, q < L.top_press) → find_layer_press q ls = none := by
  induction ls with
  | nil => intro q _; rfl
  | cons L rest ih =>
    intro q hq
    have h : ¬ L.top_press ≤ q := not_le.mpr (hq L (List.mem_cons_self _ _))
    rw [find_layer_press_cons_gt h, ih q (fun X hX => hq X (List.mem_cons_of_mem _ hX))]
    rfl

/-! ### Model-level pressure lemmas -/

lemma model_press_cons_le {a : ℝ} {L : ISALayer} {rest : List ISALayer}
    (h : a ≤ L.height) :
    (ISAModel.mk (L :: rest)).get_pressure_by_altitude a =
      some (L.get_pressure_by_altitude a) := by
  unfold ISAModel.get_pressure_by_altitude
  rw [find_layer_alt_cons_le' h]
  rfl

lemma model_press_cons_gt {a : ℝ} {L : ISALayer} {rest : List ISALayer}
    (h : ¬ a ≤ L.height) :
    (ISAModel.mk (L :: rest)).get_pressure_by_altitude a =
      (ISAModel.mk rest).get_pressure_by_altitude (a - L.height) := by
  unfold ISAModel.get_pressure_by_altitude
  rw [find_layer_alt_cons_gt' h]

/-- The base pressure of the first layer (`0` for an empty stack). -/
noncomputable def head_base : List ISALayer → ℝ
  | [] => 0
  | L :: _ => L.base_press

lemma model_press_nil (r : ℝ) :
    (ISAModel.mk []).get_pressure_by_altitude r = none := rfl

/-- In a well-formed stack, any pressure computed at a strictly positive
global altitude lies strictly below the stack's base pressure. -/
lemma model_press_lt_head (ls : List ISALayer) :
    (∀ L ∈ ls, L.Pos) → List.Chain' pressure_matched ls →
      ∀ r p : ℝ, 0 < r →
        (ISAModel.mk ls).get_pressure_by_altitude r = some p → p < head_base ls := by
  induction ls with
  | nil =>
    intro _ _ r p _ hsome
    rw [model_press_nil] at hsome
    exact absurd hsome (by simp)
  | cons L rest ih =>
    intro hpos hch r p hr hsome
    have hLP : L.Pos := hpos L (List.mem_cons_self _ _)
    by_cases h : r ≤ L.height
    · rw [model_press_cons_le h] at hsome
      have hp : p = L.get_pressure_by_altitude r := (Option.some.inj hsome).symm
      have : L.get_pressure_by_altitude r < L.get_pressure_by_altitude 0 :=
        L.press_strictAnti hLP (le_refl 0) hr
      rw [L.press_at_zero] at this
      rw [hp]
      exact this
    · rw [model_press_cons_gt h] at hsome
      have hr' : 0 < r - L.height := by push_neg at h; linarith [hLP.1]
      have hp' : p < head_base rest :=
        ih (fun X hX => hpos X (List.mem_cons_of_mem _ hX)) (List.Chain'.tail hch)
          (r - L.height) p hr' hsome
      rcases rest with _ | ⟨B, rest'⟩
      · rw [model_press_nil] at hsome
        exact absurd hsome (by simp)
      · have hmatch : pressure_matched L B := (List.chain'_cons.mp hch).1
        have htop : L.get_pressure_by_altitude L.height < L.base_press := by
          have := L.press_strictAnti hLP (le_refl 0) hLP.1
          rw [L.press_at_zero] at this
          exact this
        have hb1 : head_base (B :: rest') = B.base_press := rfl
        have hb2 : head_base (L :: B :: rest') = L.base_press := rfl
        rw [hb1] at hp'
        unfold pressure_matched at hmatch
        rw [hb2]
        rw [hmatch] at hp'
        linarith

/-- Same bound, against the first layer's top pressure, used to show the
pressure scan skips lower layers. -/
lemma model_press_lt_head_top {L : ISALayer} {rest : List ISALayer}
    (hpos : ∀ X ∈ L :: rest, X.Pos) (hch : List.Chain' pressure_matched (L :: rest))
    {r p : ℝ} (hr : 0 < r)
    (hsome : (ISAModel.mk rest).get_pressure_by_altitude r = some p) :
    p < L.top_press := by
  have hp' : p < head_base rest :=
    model_press_lt_head rest (fun X hX => hpos X (List.mem_cons_of_mem _ hX))
      (List.Chain'.tail hch) r p hr hsome
  rcases rest with _ | ⟨B, rest'⟩
  · rw [model_press_nil] at hsome
    exact absurd hsome (by simp)
  · have hmatch : pressure_matched L B := (List.chain'_cons.mp hch).1
    have hb1 : head_base (B :: rest') = B.base_press := rfl
    rw [hb1] at hp'
    unfold pressure_matched at hmatch
    unfold ISALayer.top_press
    rw [← hmatch]
    exact hp'

/-- Pressure is strictly decreasing in global altitude over the whole domain
of a well-formed stack. -/
lemma model_press_strictAnti (ls : List ISALayer) :
    (∀ L ∈ ls, L.Pos) → List.Chain' pressure_matched ls →
      ∀ a1 a2 : ℝ, 0 ≤ a1 → a1 < a2 → a2 ≤ (ls.map ISALayer.height).sum →
        ∃ p1 p2 : ℝ,
          (ISAModel.mk ls).get_pressure_by_altitude a1 = some p1 ∧
          (ISAModel.mk ls).get_pressure_by_altitude a2 = some p2 ∧ p2 < p1 := by
  induction ls with
  | nil =>
    intro _ _ a1 a2 h1 h12 h2
    simp only [List.map_nil, List.sum_nil] at h2
    linarith
  | cons L rest ih =>
    intro hpos hch a1 a2 h1 h12 h2
    have hLP : L.Pos := hpos L (List.mem_cons_self _ _)
    rw [List.map_cons, List.sum_cons] at h2
    by_cases hb : a2 ≤ L.height
    · have ha : a1 ≤ L.height := by linarith
      refine ⟨L.get_pressure_by_altitude a1, L.get_pressure_by_altitude a2,
        model_press_cons_le ha, model_press_cons_le hb, ?_⟩
      exact L.press_strictAnti hLP h1 h12
    · by_cases ha : a1 ≤ L.height
      · -- a1 in the bottom layer, a2 strictly above it
        push_neg at hb
        have hr' : 0 < a2 - L.height := by linarith
        have hrest_pos : ∀ X ∈ rest, X.Pos := fun X hX => hpos X (List.mem_cons_of_mem _ hX)
        rcases rest with _ | ⟨B, rest'⟩
        · simp only [List.map_nil, List.sum_nil] at h2
          linarith
        · obtain ⟨p2, p2', hp2, hp2', hlt⟩ :=
            ih hrest_pos (List.Chain'.tail hch) 0 (a2 - L.height) (le_refl 0) hr'
              (by rw [List.map_cons, List.sum_cons] at h2 ⊢; linarith)
          -- only the a2 evaluation is needed from the induction hypothesis
          have hsome2 : (ISAModel.mk (L :: B :: rest')).get_pressure_by_altitude a2 =
              some p2' := by
            rw [model_press_cons_gt (not_le.mpr hb)]
            exact hp2'
          have hskip : p2' < L.top_press :=
            model_press_lt_head_top hpos hch hr' hp2'
          refine ⟨L.get_pressure_by_altitude a1, p2', model_press_cons_le ha, hsome2, ?_⟩
          have hmono : L.get_pressure_by_altitude L.height ≤
              L.get_pressure_by_altitude a1 := L.press_antitone hLP h1 ha
          unfold ISALayer.top_press at hskip
          linarith
      · -- both altitudes strictly above the bottom layer
        push_neg at ha hb
        obtain ⟨p1, p2, hp1, hp2, hlt⟩ :=
          ih (fun X hX => hpos X (List.mem_cons_of_mem _ hX)) (List.Chain'.tail hch)
            (a1 - L.height) (a2 - L.height) (by linarith) (by linarith) (by linarith)
        refine ⟨p1, p2, ?_, ?_, hlt⟩
        · rw [model_press_cons_gt (not_le.mpr ha)]; exact hp1
        · rw [model_press_cons_gt (not_le.mpr hb)]; exact hp2

/-! ### Model-level altitude-from-pressure lemmas -/

lemma model_alt_nil (q : ℝ) :
    (ISAModel.mk []).get_altitude_by_pressure q = none := rfl

lemma model_alt_cons_le {q : ℝ} {L : ISALayer} {rest : List ISALayer}
    (hc : L.top_press ≤ q) :
    (ISAModel.mk (L :: rest)).get_altitude_by_pressure q =
      some (L.get_altitude_by_pressure q) := by
  unfold ISAModel.get_altitude_by_pressure
  rw [find_layer_press_cons_le hc]
  simp

lemma model_alt_cons_gt {q : ℝ} {L : ISALayer} {rest : List ISALayer}
    (hc : ¬ L.top_press ≤ q) :
    (ISAModel.mk (L :: rest)).get_altitude_by_pressure q =
      ((ISAModel.mk rest).get_altitude_by_pressure q).map (fun v => L.height + v) := by
  unfold ISAModel.get_altitude_by_pressure
  rw [find_layer_press_cons_gt hc]
  cases hf : find_layer_press q rest with
  | none => rfl
  | some ik =>
    simp only [Option.map_some']
    congr 1
    rw [List.take_succ_cons, List.map_cons, List.sum_cons]
    ring

/-- Round trip at the model level: computing the pressure at any in-range
global altitude of a nonempty well-formed stack and asking for the altitude
of that pressure returns the original altitude exactly. -/
lemma model_roundtrip (ls : List ISALayer) :
    ls ≠ [] → (∀ L ∈ ls, L.Pos) → List.Chain' pressure_matched ls →
      ∀ a : ℝ, 0 ≤ a → a ≤ (ls.map ISALayer.height).sum →
        ∃ p : ℝ,
          (ISAModel.mk ls).get_pressure_by_altitude a = some p ∧
          (ISAModel.mk ls).get_altitude_by_pressure p = some a := by
  induction ls with
  | nil => intro hne; exact absurd rfl hne
  | cons L rest ih =>
    intro _ hpos hch a h0 hsum
    have hLP : L.Pos := hpos L (List.mem_cons_self _ _)
    rw [List.map_cons, List.sum_cons] at hsum
    by_cases h : a ≤ L.height
    · refine ⟨L.get_pressure_by_altitude a, model_press_cons_le h, ?_⟩
      have hskip : L.top_press ≤ L.get_pressure_by_altitude a := by
        unfold ISALayer.top_press
        exact L.press_antitone hLP h0 h
      rw [model_alt_cons_le hskip, L.roundtrip hLP h0]
    · push_neg at h
      have hrest_ne : rest ≠ [] := by
        intro hc
        subst hc
        simp only [List.map_nil, List.sum_nil] at hsum
        linarith
      obtain ⟨p, hp, halt⟩ :=
        ih hrest_ne (fun X hX => hpos X (List.mem_cons_of_mem _ hX))
          (List.Chain'.tail hch) (a - L.height) (by linarith) (by linarith)
      have hskip : ¬ L.top_press ≤ p := by
        push_neg
        exact model_press_lt_head_top hpos hch (by linarith) hp
      refine ⟨p, ?_, ?_⟩
      · rw [model_press_cons_gt (not_le.mpr h)]
        exact hp
      · rw [model_alt_cons_gt hskip, halt]
        simp only [Option.map_some']
        congr 1
        ring

/-! ### Temperature lookup lemmas -/

/-- The layer temperature returns a value exactly on the asserted interval. -/
lemma ISALayer.temp_isSome_iff (L : ISALayer) (a : ℝ) :
    (L.get_temperature_by_altitude a).isSome ↔ (-slack ≤ a ∧ a ≤ L.height + slack) := by
  unfold ISALayer.get_temperature_by_altitude
  split_ifs with h
  · simp [h]
  · simp [h]

lemma ISALayer.temp_some_of_mem (L : ISALayer) {a : ℝ} (h0 : 0 ≤ a) (h1 : a ≤ L.height) :
    L.get_temperature_by_altitude a =
      some (L.tbot + (L.ttop - L.tbot) * (a / L.height)) := by
  unfold ISALayer.get_temperature_by_altitude
  rw [if_pos]
  constructor
  · have := slack_pos; linarith
  · have := slack_pos; linarith

lemma model_temp_nil (a : ℝ) :
    (ISAModel.mk []).get_temperature_by_altitude a = none := rfl

lemma model_temp_cons_le {a : ℝ} {L : ISALayer} {rest : List ISALayer}
    (h : a ≤ L.height) :
    (ISAModel.mk (L :: rest)).get_temperature_by_altitude a =
      L.get_temperature_by_altitude a := by
  unfold ISAModel.get_temperature_by_altitude
  rw [find_layer_alt_cons_le' h]

lemma model_temp_cons_gt {a : ℝ} {L : ISALayer} {rest : List ISALayer}
    (h : ¬ a ≤ L.height) :
    (ISAModel.mk (L :: rest)).get_temperature_by_altitude a =
      (ISAModel.mk rest).get_temperature_by_altitude (a - L.height) := by
  unfold ISAModel.get_temperature_by_altitude
  rw [find_layer_alt_cons_gt' h]

/-- Above the total height of a model with nonnegative layer heights both
altitude queries fail (the `ValueError` of `_get_layer_by_altitude`). -/
lemma model_queries_none_above (M : ISAModel)
    (hpos : ∀ L ∈ M.layers, 0 ≤ L.height) {a : ℝ} (ha : M.height < a) :
    M.get_temperature_by_altitude a = none ∧ M.get_pressure_by_altitude a = none := by
  have hfind : find_layer_alt a 0 M.layers = none :=
    find_layer_alt_none_of_gt M.layers a hpos ha
  constructor
  · unfold ISAModel.get_temperature_by_altitude
    rw [hfind]
  · unfold ISAModel.get_pressure_by_altitude
    rw [hfind]
    rfl

/-- At altitude `0` a model with a positive first layer returns the first
layer's base values. -/
lemma model_at_zero {L : ISALayer} {rest : List ISALayer} (hh : 0 < L.height) :
    (ISAModel.mk (L :: rest)).get_temperature_by_altitude 0 = some L.tbot ∧
    (ISAModel.mk (L :: rest)).get_pressure_by_altitude 0 = some L.base_press := by
  constructor
  · rw [model_temp_cons_le (le_of_lt hh), L.temp_some_of_mem (le_refl 0) (le_of_lt hh)]
    rw [zero_div, mul_zero, add_zero]
  · rw [model_press_cons_le (le_of_lt hh), L.press_at_zero]

/-- At the exact total height, both altitude queries succeed (the scan hands
the query to the last layer at its full height, where the assert passes). -/
lemma model_at_total (M : ISAModel) (hne : M.layers ≠ [])
    (hpos : ∀ L ∈ M.layers, 0 < L.height) :
    (∃ t, M.get_temperature_by_altitude M.height = some t) ∧
    (∃ p, M.get_pressure_by_altitude M.height = some p) := by
  obtain ⟨Ln, hlast, hfind⟩ := find_layer_alt_total M.layers hne hpos
  have hLn : Ln ∈ M.layers := by
    apply List.mem_of_mem_getLast?
    rw [hlast]
    rfl
  have hhn : 0 < Ln.height := hpos Ln hLn
  constructor
  · refine ⟨Ln.tbot + (Ln.ttop - Ln.tbot) * (Ln.height / Ln.height), ?_⟩
    unfold ISAModel.get_temperature_by_altitude ISAModel.height
    rw [hfind]
    exact Ln.temp_some_of_mem (le_of_lt hhn) (le_refl _)
  · refine ⟨Ln.get_pressure_by_altitude Ln.height, ?_⟩
    unfold ISAModel.get_pressure_by_altitude ISAModel.height
    rw [hfind]
    rfl

/-! ### add_layer lemmas -/

lemma truthy_or_some (v : ℝ) (d : Option ℝ) :
    truthy_or (some v) d = if v = 0 then d else some v := rfl

lemma truthy_or_none (d : Option ℝ) : truthy_or none d = d := rfl

lemma ISAModel.derived_temp_eq (M : ISAModel) (L : ISALayer)
    (hL : M.layers.getLast? = some L) :
    M.derived_temp = L.get_temperature_by_altitude L.height := by
  unfold ISAModel.derived_temp
  rw [hL]

lemma ISAModel.derived_press_eq (M : ISAModel) (L : ISALayer)
    (hL : M.layers.getLast? = some L) :
    M.derived_press = some (L.get_pressure_by_altitude L.height) := by
  unfold ISAModel.derived_press
  rw [hL]

/-- `add_layer` with omitted base values appends a layer whose base
temperature is the previous last layer's temperature at its top and whose
base pressure is the previous last layer's pressure at its top. -/
lemma add_layer_none_none (M : ISAModel) (L : ISALayer)
    (hL : M.layers.getLast? = some L) (hh : 0 ≤ L.height) (h lr : ℝ) :
    ∃ bt, L.get_temperature_by_altitude L.height = some bt ∧
      M.add_layer h lr none none =
        some (ISAModel.mk (M.layers ++
          [ISALayer.make h lr bt (L.get_pressure_by_altitude L.height) 0.28704])) := by
  have htemp := L.temp_some_of_mem hh (le_refl L.height)
  refine ⟨_, htemp, ?_⟩
  unfold ISAModel.add_layer
  rw [truthy_or_none, truthy_or_none, M.derived_temp_eq L hL, M.derived_press_eq L hL, htemp]

/-- The appended layer of `add_layer` with omitted base values is
boundary-matched to the previous last layer. -/
lemma boundary_of_make (L : ISALayer) {bt : ℝ} (h lr : ℝ) (hh : 0 ≤ h)
    (hbt : L.get_temperature_by_altitude L.height = some bt) :
    boundary_matched L (ISALayer.make h lr bt (L.get_pressure_by_altitude L.height) 0.28704) := by
  constructor
  · have h0 : (ISALayer.make h lr bt (L.get_pressure_by_altitude L.height)
        0.28704).get_temperature_by_altitude 0 = some bt := by
      have := (ISALayer.make h lr bt (L.get_pressure_by_altitude L.height)
        0.28704).temp_some_of_mem (le_refl 0) hh
      rw [this, zero_div, mul_zero, add_zero]
      rfl
    rw [h0, hbt]
  · rw [ISALayer.press_at_zero]
    rfl

/-- Invariant carried through the construction of the standard model: the
last layer is known with its height, the boundary chain holds, and the first
layer is the explicitly-built troposphere layer. -/
def StdInv (M : ISAModel) (hlast : ℝ) : Prop :=
  (∃ L, M.layers.getLast? = some L ∧ L.height = hlast) ∧
  List.Chain' boundary_matched M.layers ∧
  (∃ t, M.layers = ISALayer.make 11.019 (-6.5) (273.15 + 19.0) 101325 0.28704 :: t)

lemma std_step (M : ISAModel) (hlast h lr : ℝ) (hM : StdInv M hlast)
    (hh0 : 0 ≤ hlast) (hh : 0 ≤ h) :
    ∃ N, M.add_layer h lr none none = some N ∧ StdInv N h := by
  obtain ⟨⟨L, hL, hLh⟩, hch, t, hhead⟩ := hM
  have hh0' : 0 ≤ L.height := by rw [hLh]; exact hh0
  obtain ⟨bt, hbt, hadd⟩ := add_layer_none_none M L hL hh0' h lr
  refine ⟨_, hadd, ?_, ?_, ?_⟩
  · refine ⟨ISALayer.make h lr bt (L.get_pressure_by_altitude L.height) 0.28704, ?_, rfl⟩
    simp only
    rw [List.getLast?_concat]
  · simp only
    rw [List.chain'_append]
    refine ⟨hch, List.chain'_singleton _, ?_⟩
    intro x hx y hy
    rw [hL] at hx
    have hx' : L = x := by simpa using hx
    have hy' : ISALayer.make h lr bt (L.get_pressure_by_altitude L.height) 0.28704 = y := by
      simpa using hy
    rw [← hx', ← hy']
    exact boundary_of_make L h lr hh hbt
  · refine ⟨t ++ [ISALayer.make h lr bt (L.get_pressure_by_altitude L.height) 0.28704], ?_⟩
    simp only
    rw [hhead, List.cons_append]

/-- The first `add_layer` call of `standard_config`, with both base values
explicit (and nonzero, hence truthy). -/
lemma standard_first :
    (ISAModel.mk []).add_layer 11.019 (-6.5) (some (273.15 + 19.0)) (some 101325) =
      some (ISAModel.mk [ISALayer.make 11.019 (-6.5) (273.15 + 19.0) 101325 0.28704]) := by
  unfold ISAModel.add_layer
  rw [truthy_or_some, truthy_or_some,
    if_neg (by norm_num : ¬ (273.15 + 19.0 : ℝ) = 0),
    if_neg (by norm_num : ¬ (101325 : ℝ) = 0)]
  rfl

/-- Full evaluation of `standard_config`: it succeeds, its first layer is the
explicitly-given troposphere layer, and every consecutive pair of layers is
boundary matched. -/
lemma standard_config_spec :
    ∃ M, ISAModel.standard_config = some M ∧ StdInv M (84.852 - 71.802) := by
  have hInv1 : StdInv
      (ISAModel.mk [ISALayer.make 11.019 (-6.5) (273.15 + 19.0) 101325 0.28704]) 11.019 := by
    refine ⟨⟨ISALayer.make 11.019 (-6.5) (273.15 + 19.0) 101325 0.28704, ?_, rfl⟩,
      List.chain'_singleton _, ⟨[], rfl⟩⟩
    rfl
  obtain ⟨M2, hM2, hInv2⟩ :=
    std_step _ 11.019 (20.063 - 11.019) 0.0 hInv1 (by norm_num) (by norm_num)
  obtain ⟨M3, hM3, hInv3⟩ :=
    std_step _ _ (32.162 - 20.063) 1.0 hInv2 (by norm_num) (by norm_num)
  obtain ⟨M4, hM4, hInv4⟩ :=
    std_step _ _ (47.350 - 32.162) 2.8 hInv3 (by norm_num) (by norm_num)
  obtain ⟨M5, hM5, hInv5⟩ :=
    std_step _ _ (51.413 - 47.350) 0.0 hInv4 (by norm_num) (by norm_num)
  obtain ⟨M6, hM6, hInv6⟩ :=
    std_step _ _ (71.802 - 51.413) (-2.8) hInv5 (by norm_num) (by norm_num)
  obtain ⟨M7, hM7, hInv7⟩ :=
    std_step _ _ (84.852 - 71.802) (-2.0) hInv6 (by norm_num) (by norm_num)
  refine ⟨M7, ?_, hInv7⟩
  unfold ISAModel.standard_config
  rw [standard_first, Option.some_bind, hM2, Option.some_bind, hM3, Option.some_bind,
    hM4, Option.some_bind, hM5, Option.some_bind, hM6, Option.some_bind, hM7]

/-! ### Concrete layers with rational pressures

With `gas_const = 9.8066` (the constructor's `gas_const` parameter, which the
Python `__init__` accepts), `height = tbot = ttop = 1`, the pressure exponent
is exactly `-1`, so all pressures are rational and can be evaluated. -/

noncomputable def unit_layer (P : ℝ) : ISALayer := ISALayer.make 1 0 1 P 9.8066

lemma unit_layer_fields (P : ℝ) :
    (unit_layer P).height = 1 ∧ (unit_layer P).tbot = 1 ∧ (unit_layer P).base_press = P ∧
      (unit_layer P).gas_const = 9.8066 ∧ (unit_layer P).ttop = 1 := by
  unfold unit_layer ISALayer.make
  norm_num

lemma unit_layer_pos (P : ℝ) (hP : 0 < P) : (unit_layer P).Pos := by
  obtain ⟨h1, h2, h3, h4, h5⟩ := unit_layer_fields P
  exact ⟨by rw [h1]; norm_num, by rw [h2]; norm_num, by rw [h5]; norm_num,
    by rw [h3]; exact hP, by rw [h4]; norm_num⟩

lemma rpow_neg_one_eq (x : ℝ) : x ^ (-1 : ℝ) = x⁻¹ := by
  rw [show (-1 : ℝ) = ((-1 : ℤ) : ℝ) by norm_num, Real.rpow_intCast, zpow_neg_one]

lemma unit_layer_press (P a : ℝ) :
    (unit_layer P).get_pressure_by_altitude a = P * (1 + a)⁻¹ := by
  obtain ⟨h1, h2, h3, h4, h5⟩ := unit_layer_fields P
  rw [ISALayer.get_pressure_by_altitude, h1, h2, h3, h4, h5]
  rw [show (1 + a * 1 / (1 ^ 2 * 1) : ℝ) = 1 + a by norm_num]
  rw [show (-grav_const * 1 * 1 / (9.8066 * 1) : ℝ) = -1 by unfold grav_const; norm_num]
  rw [rpow_neg_one_eq]

lemma unit_layer_alt (P q : ℝ) :
    (unit_layer P).get_altitude_by_pressure q = P / q - 1 := by
  obtain ⟨h1, h2, h3, h4, h5⟩ := unit_layer_fields P
  rw [ISALayer.get_altitude_by_pressure, h1, h2, h3, h4, h5]
  rw [show (9.8066 * 1 / (grav_const * 1 * 1) : ℝ) = 1 by unfold grav_const; norm_num]
  rw [Real.rpow_one]
  ring

lemma unit_layer_top (P : ℝ) : (unit_layer P).top_press = P * 2⁻¹ := by
  unfold ISALayer.top_press
  rw [(unit_layer_fields P).1, unit_layer_press]
  norm_num

/-- Two stacked unit layers with matched base pressures (`1` and `1/2`). -/
noncomputable def demo_model : ISAModel :=
  ISAModel.mk [unit_layer 1, unit_layer (1 * 2⁻¹)]

lemma demo_model_wf : demo_model.WellFormed := by
  refine ⟨by simp [demo_model], ?_, ?_⟩
  · intro L hL
    unfold demo_model at hL
    simp only [List.mem_cons, List.not_mem_nil, or_false] at hL
    rcases hL with h | h
    · rw [h]; exact unit_layer_pos 1 (by norm_num)
    · rw [h]; exact unit_layer_pos (1 * 2⁻¹) (by norm_num)
  · unfold demo_model
    refine List.chain'_cons.mpr ⟨?_, List.chain'_singleton _⟩
    unfold pressure_matched
    rw [(unit_layer_fields (1 * 2⁻¹)).2.2.1, (unit_layer_fields 1).1, unit_layer_press]
    norm_num

lemma demo_model_height : demo_model.height = 2 := by
  unfold ISAModel.height demo_model
  rw [List.map_cons, List.map_cons, List.map_nil, List.sum_cons, List.sum_cons, List.sum_nil,
    (unit_layer_fields 1).1, (unit_layer_fields (1 * 2⁻¹)).1]
  norm_num

/-- Two stacked unit layers whose base pressures violate continuity
(`1` below, `10` above). -/
noncomputable def jump_model : ISAModel :=
  ISAModel.mk [unit_layer 1, unit_layer 10]

/-! ### Claim theorems -/

/-- C1: for every layer with positive height, temperatures, base pressure
(and positive gas constant — every layer the program builds has
`gas_const = 0.28704 > 0`), and every local altitude `a` in `[0, height]`,
`get_altitude_by_pressure (get_pressure_by_altitude a) = a`; in the real
arithmetic of the embedding the round trip is exact, hence in particular
within the stated `1e-6` relative tolerance. -/
theorem C1_layer_roundtrip (L : ISALayer)
    (hh : 0 < L.height) (ht : 0 < L.tbot) (hu : 0 < L.ttop) (hp : 0 < L.base_press)
    (hr : 0 < L.gas_const) (a : ℝ) (ha0 : 0 ≤ a) (ha1 : a ≤ L.height) :
    L.get_altitude_by_pressure (L.get_pressure_by_altitude a) = a :=
  L.roundtrip ⟨hh, ht, hu, hp, hr⟩ ha0

/-- Witness for C1 at a concrete layer and altitude. -/
theorem C1_witness :
    (unit_layer 1).get_altitude_by_pressure
      ((unit_layer 1).get_pressure_by_altitude (1 / 2)) = 1 / 2 := by
  obtain ⟨h1, h2, h3, h4, h5⟩ := unit_layer_fields 1
  exact C1_layer_roundtrip (unit_layer 1)
    (by rw [h1]; norm_num) (by rw [h2]; norm_num) (by rw [h5]; norm_num)
    (by rw [h3]; norm_num) (by rw [h4]; norm_num) (1 / 2)
    (by norm_num) (by rw [h1]; norm_num)

/-- The isothermal layer used to refute C3: `height = 1`, `lapse_rate = 0`,
`base_temp = 1`, `base_press = 1`, default `gas_const = 0.28704`. -/
noncomputable def iso_layer : ISALayer := ISALayer.make 1 0 1 1 0.28704

lemma iso_layer_fields :
    iso_layer.height = 1 ∧ iso_layer.tbot = 1 ∧ iso_layer.base_press = 1 ∧
      iso_layer.gas_const = 0.28704 ∧ iso_layer.ttop = 1 := by
  unfold iso_layer ISALayer.make
  norm_num

lemma iso_layer_press_one :
    iso_layer.get_pressure_by_altitude 1 = (2 : ℝ) ^ (-(9.8066 / 0.28704) : ℝ) := by
  obtain ⟨h1, h2, h3, h4, h5⟩ := iso_layer_fields
  rw [ISALayer.get_pressure_by_altitude, h1, h2, h3, h4, h5]
  rw [show (1 + 1 * 1 / (1 ^ 2 * 1) : ℝ) = 2 by norm_num]
  rw [show (-grav_const * 1 * 1 / (0.28704 * 1) : ℝ) = -(9.8066 / 0.28704) by
    unfold grav_const; norm_num]
  rw [one_mul]

/-- C3 counterexample: for the zero-lapse-rate layer `iso_layer` at local
altitude `1`, the code's pressure differs from the isothermal exponential
`basePressure * exp(-g*a/(gasConstant*baseTemperature))`. -/
theorem C3_counterexample :
    iso_layer.get_pressure_by_altitude 1 ≠
      iso_layer.base_press *
        Real.exp (-grav_const * 1 / (iso_layer.gas_const * iso_layer.tbot)) := by
  obtain ⟨h1, h2, h3, h4, h5⟩ := iso_layer_fields
  rw [iso_layer_press_one, h2, h3, h4]
  rw [show (-grav_const * 1 / (0.28704 * 1) : ℝ) = -(9.8066 / 0.28704) by
    unfold grav_const; norm_num]
  rw [one_mul]
  rw [Real.rpow_def_of_pos (by norm_num : (0 : ℝ) < 2)]
  intro heq
  have h2' := Real.exp_eq_exp.mp heq
  have hlog : Real.log 2 < 1 := by
    have := Real.log_lt_sub_one_of_pos (by norm_num : (0 : ℝ) < 2)
      (by norm_num : (2 : ℝ) ≠ 1)
    linarith
  have hlogpos : 0 < Real.log 2 := Real.log_pos (by norm_num)
  have hcpos : (0 : ℝ) < 9.8066 / 0.28704 := by norm_num
  have h3' : Real.log 2 * (9.8066 / 0.28704) = 9.8066 / 0.28704 := by nlinarith [h2']
  nlinarith [mul_lt_mul_of_pos_right hlog hcpos]

/-- C3 (amended): at `lapseRate = 0` (so `ttop = tbot`) the general formula is
well defined with no special-casing, but it reduces to the power form
`basePressure * (1 + a/(tbot*height)) ^ (-g*height/gasConstant)`, which is
strictly greater than the isothermal exponential
`basePressure * exp(-g*a/(gasConstant*tbot))` for every positive altitude. -/
theorem C3_zero_lapse_form (L : ISALayer) (hh : 0 < L.height) (ht : 0 < L.tbot)
    (hp : 0 < L.base_press) (hr : 0 < L.gas_const) (hiso : L.ttop = L.tbot)
    (a : ℝ) (ha : 0 < a) :
    L.get_pressure_by_altitude a =
      L.base_press *
        (1 + a / (L.tbot * L.height)) ^ (-grav_const * L.height / L.gas_const) ∧
    L.base_press * Real.exp (-grav_const * a / (L.gas_const * L.tbot)) <
      L.get_pressure_by_altitude a := by
  have hform : L.get_pressure_by_altitude a =
      L.base_press *
        (1 + a / (L.tbot * L.height)) ^ (-grav_const * L.height / L.gas_const) := by
    rw [ISALayer.get_pressure_by_altitude, hiso]
    have hbase : 1 + a * L.tbot / (L.tbot ^ 2 * L.height) = 1 + a / (L.tbot * L.height) := by
      field_simp
      ring
    have hexp : -grav_const * L.tbot * L.height / (L.gas_const * L.tbot) =
        -grav_const * L.height / L.gas_const := by
      field_simp
      ring
    rw [hbase, hexp]
  refine ⟨hform, ?_⟩
  rw [hform]
  have hxpos : 0 < a / (L.tbot * L.height) := div_pos ha (mul_pos ht hh)
  have hlog : Real.log (1 + a / (L.tbot * L.height)) < a / (L.tbot * L.height) := by
    have := Real.log_lt_sub_one_of_pos
      (show 0 < 1 + a / (L.tbot * L.height) by linarith)
      (show (1 : ℝ) + a / (L.tbot * L.height) ≠ 1 by intro hc; nlinarith)
    linarith
  rw [Real.rpow_def_of_pos (show 0 < 1 + a / (L.tbot * L.height) by linarith)]
  apply mul_lt_mul_of_pos_left _ hp
  rw [Real.exp_lt_exp]
  have hglt : L.height * Real.log (1 + a / (L.tbot * L.height)) <
      L.height * (a / (L.tbot * L.height)) :=
    mul_lt_mul_of_pos_left hlog hh
  have hxval : L.height * (a / (L.tbot * L.height)) = a / L.tbot := by
    field_simp
    ring
  have hgR : 0 < grav_const / L.gas_const := div_pos grav_const_pos hr
  have e1 : -grav_const * a / (L.gas_const * L.tbot) =
      -(grav_const / L.gas_const * (a / L.tbot)) := by ring
  have e2 : Real.log (1 + a / (L.tbot * L.height)) *
      (-grav_const * L.height / L.gas_const) =
      -(grav_const / L.gas_const *
        (L.height * Real.log (1 + a / (L.tbot * L.height)))) := by ring
  rw [e1, e2, neg_lt_neg_iff]
  apply mul_lt_mul_of_pos_left _ hgR
  rw [← hxval]
  exact hglt

/-- Witness for the amended C3 at `iso_layer`, altitude `1`. -/
theorem C3_witness :
    iso_layer.get_pressure_by_altitude 1 =
      iso_layer.base_press *
        (1 + 1 / (iso_layer.tbot * iso_layer.height)) ^
          (-grav_const * iso_layer.height / iso_layer.gas_const) ∧
    iso_layer.base_press *
        Real.exp (-grav_const * 1 / (iso_layer.gas_const * iso_layer.tbot)) <
      iso_layer.get_pressure_by_altitude 1 := by
  obtain ⟨h1, h2, h3, h4, h5⟩ := iso_layer_fields
  exact C3_zero_lapse_form iso_layer (by rw [h1]; norm_num) (by rw [h2]; norm_num)
    (by rw [h3]; norm_num) (by rw [h4]; norm_num) (by rw [h5, h2]) 1 (by norm_num)

lemma jump_model_press_zero : jump_model.get_pressure_by_altitude 0 = some 1 := by
  unfold jump_model
  rw [model_press_cons_le (by rw [(unit_layer_fields 1).1]; norm_num :
    (0 : ℝ) ≤ (unit_layer 1).height)]
  rw [unit_layer_press]
  norm_num

lemma jump_model_press_mid : jump_model.get_pressure_by_altitude (3 / 2) = some (20 / 3) := by
  unfold jump_model
  rw [model_press_cons_gt (by rw [(unit_layer_fields 1).1]; norm_num :
    ¬ (3 / 2 : ℝ) ≤ (unit_layer 1).height)]
  rw [show (3 / 2 - (unit_layer 1).height : ℝ) = 1 / 2 by
    rw [(unit_layer_fields 1).1]; norm_num]
  rw [model_press_cons_le (by rw [(unit_layer_fields 10).1]; norm_num :
    (1 / 2 : ℝ) ≤ (unit_layer 10).height)]
  rw [unit_layer_press]
  norm_num

lemma jump_model_height : jump_model.height = 2 := by
  unfold ISAModel.height jump_model
  rw [List.map_cons, List.map_cons, List.map_nil, List.sum_cons, List.sum_cons,
    List.sum_nil, (unit_layer_fields 1).1, (unit_layer_fields 10).1]
  norm_num

/-- C4 counterexample: `jump_model` has two layers with positive heights,
temperatures and pressures, yet its pressure is not strictly decreasing on
`[0, totalHeight]`: at altitudes `0 < 3/2` it returns pressures `1 < 20/3`.
(The claim omits the base-pressure continuity between consecutive layers
that `add_layer` normally establishes.) -/
theorem C4_counterexample :
    (∀ L ∈ jump_model.layers, 0 < L.height ∧ 0 < L.tbot ∧ 0 < L.ttop ∧
      0 < L.base_press) ∧
    (0 : ℝ) ≤ 0 ∧ (0 : ℝ) < 3 / 2 ∧ (3 / 2 : ℝ) ≤ jump_model.height ∧
    jump_model.get_pressure_by_altitude 0 = some 1 ∧
    jump_model.get_pressure_by_altitude (3 / 2) = some (20 / 3) ∧
    ¬ ((20 / 3 : ℝ) < 1) := by
  refine ⟨?_, le_refl 0, by norm_num, by rw [jump_model_height]; norm_num,
    jump_model_press_zero, jump_model_press_mid, by norm_num⟩
  intro L hL
  unfold jump_model at hL
  simp only [List.mem_cons, List.not_mem_nil, or_false] at hL
  rcases hL with h | h
  · have := unit_layer_pos 1 (by norm_num)
    rw [h]
    exact ⟨this.1, this.2.1, this.2.2.1, this.2.2.2.1⟩
  · have := unit_layer_pos 10 (by norm_num)
    rw [h]
    exact ⟨this.1, this.2.1, this.2.2.1, this.2.2.2.1⟩

/-- C4 (amended): for every well-formed model (positive layer quantities and
base-pressure continuity between consecutive layers, as established by
`add_layer`), the model pressure is strictly decreasing over the whole
domain `[0, totalHeight]`. -/
theorem C4_pressure_strictly_decreasing (M : ISAModel) (hwf : M.WellFormed)
    (a1 a2 : ℝ) (h0 : 0 ≤ a1) (h12 : a1 < a2) (h2 : a2 ≤ M.height) :
    ∃ p1 p2 : ℝ,
      M.get_pressure_by_altitude a1 = some p1 ∧
      M.get_pressure_by_altitude a2 = some p2 ∧ p2 < p1 :=
  model_press_strictAnti M.layers hwf.2.1 hwf.2.2 a1 a2 h0 h12 h2

/-- Witness for the amended C4 on the continuity-matched `demo_model`. -/
theorem C4_witness :
    ∃ p1 p2 : ℝ,
      demo_model.get_pressure_by_altitude 0 = some p1 ∧
      demo_model.get_pressure_by_altitude (3 / 2) = some p2 ∧ p2 < p1 :=
  C4_pressure_strictly_decreasing demo_model demo_model_wf 0 (3 / 2)
    (le_refl 0) (by norm_num) (by rw [demo_model_height]; norm_num)

/-- C6: for every well-formed model and every global altitude in
`[0, totalHeight]`, computing the pressure and asking for the altitude of
that pressure returns the original global altitude exactly (the matched
layer's local inverse plus the heights of all layers strictly below it). -/
theorem C6_model_roundtrip (M : ISAModel) (hwf : M.WellFormed)
    (a : ℝ) (h0 : 0 ≤ a) (h1 : a ≤ M.height) :
    ∃ p : ℝ,
      M.get_pressure_by_altitude a = some p ∧
      M.get_altitude_by_pressure p = some a :=
  model_roundtrip M.layers hwf.1 hwf.2.1 hwf.2.2 a h0 h1

/-- Witness for C6 on `demo_model` at global altitude `3/2` (inside the
second layer). -/
theorem C6_witness :
    ∃ p : ℝ,
      demo_model.get_pressure_by_altitude (3 / 2) = some p ∧
      demo_model.get_altitude_by_pressure p = some (3 / 2) :=
  C6_model_roundtrip demo_model demo_model_wf (3 / 2) (by norm_num)
    (by rw [demo_model_height]; norm_num)

/-- First-match characterization of the pressure scan: a successful lookup
returns the layer at the first position whose top pressure does not exceed
the query. -/
lemma find_press_spec (ls : List ISALayer) :
    ∀ (q : ℝ) (i : ℕ) (L : ISALayer), find_layer_press q ls = some (i, L) →
      ∃ hi : i < ls.length, ls.get ⟨i, hi⟩ = L ∧ L.top_press ≤ q ∧
        ∀ (j : ℕ) (hj : j < ls.length), j < i → q < (ls.get ⟨j, hj⟩).top_press := by
  induction ls with
  | nil =>
    intro q i L h
    rw [find_layer_press_nil] at h
    exact absurd h (by simp)
  | cons A rest ih =>
    intro q i L h
    by_cases hc : A.top_press ≤ q
    · rw [find_layer_press_cons_le hc] at h
      have hinj := Option.some.inj h
      cases hinj
      refine ⟨by simp, rfl, hc, ?_⟩
      intro j _ hji
      exact absurd hji (Nat.not_lt_zero j)
    · rw [find_layer_press_cons_gt hc] at h
      cases hf : find_layer_press q rest with
      | none =>
        rw [hf] at h
        exact absurd h (by simp)
      | some ik =>
        rw [hf] at h
        simp only [Option.map_some'] at h
        obtain ⟨i', L'⟩ := ik
        have hinj := Option.some.inj h
        cases hinj
        obtain ⟨hi', hget, htop, hall⟩ := ih q i' L' hf
        refine ⟨Nat.succ_lt_succ hi', hget, htop, ?_⟩
        intro j hj hji
        cases j with
        | zero => exact not_le.mp hc
        | succ j' =>
          have hj' : j' < rest.length := Nat.lt_of_succ_lt_succ hj
          exact hall j' hj' (Nat.lt_of_succ_lt_succ hji)

/-- When the tops are strictly decreasing bottom-up, querying exactly the
`i`-th layer's top pressure returns layer `i` itself — the lower of the two
layers adjacent to that boundary. -/
lemma find_press_at_top (ls : List ISALayer) :
    List.Pairwise (fun A B => B.top_press < A.top_press) ls →
      ∀ (i : ℕ) (hi : i < ls.length),
        find_layer_press ((ls.get ⟨i, hi⟩).top_press) ls = some (i, ls.get ⟨i, hi⟩) := by
  induction ls with
  | nil => intro _ i hi; exact absurd hi (Nat.not_lt_zero i)
  | cons A rest ih =>
    intro hpw i hi
    cases i with
    | zero => exact find_layer_press_cons_le (le_refl _)
    | succ i' =>
      have hi' : i' < rest.length := Nat.lt_of_succ_lt_succ hi
      have hmem : rest.get ⟨i', hi'⟩ ∈ rest := List.get_mem rest i' hi'
      have hlt : (rest.get ⟨i', hi'⟩).top_press < A.top_press :=
        (List.pairwise_cons.mp hpw).1 _ hmem
      have hgeteq : (A :: rest).get ⟨i' + 1, hi⟩ = rest.get ⟨i', hi'⟩ := rfl
      rw [hgeteq]
      have hstep := @find_layer_press_cons_gt _ A rest (not_le.mpr hlt)
      rw [hstep, ih (List.pairwise_cons.mp hpw).2 i' hi']
      rfl

/-- C8: the pressure lookup scans bottom-up and returns the first layer whose
top pressure is `<=` the query pressure (first conjunct, with the matched
position and the strict failure of every earlier layer); consequently, under
strictly decreasing top pressures, a query equal to a layer-boundary pressure
returns the lower of the two adjacent layers (second conjunct). -/
theorem C8_pressure_scan :
    (∀ (ls : List ISALayer) (q : ℝ) (i : ℕ) (L : ISALayer),
      find_layer_press q ls = some (i, L) →
        ∃ hi : i < ls.length, ls.get ⟨i, hi⟩ = L ∧ L.top_press ≤ q ∧
          ∀ (j : ℕ) (hj : j < ls.length), j < i → q < (ls.get ⟨j, hj⟩).top_press) ∧
    (∀ (ls : List ISALayer),
      List.Pairwise (fun A B => B.top_press < A.top_press) ls →
        ∀ (i : ℕ) (hi : i < ls.length),
          find_layer_press ((ls.get ⟨i, hi⟩).top_press) ls =
            some (i, ls.get ⟨i, hi⟩)) :=
  ⟨fun ls q i L h => find_press_spec ls q i L h,
    fun ls h i hi => find_press_at_top ls h i hi⟩

/-- Witness for C8: on the two matched unit layers, querying exactly the
boundary pressure (the second layer's top pressure is below it) returns the
appropriate layer; here querying layer 1's own top pressure returns
position 1. -/
theorem C8_witness :
    find_layer_press ((unit_layer (1 * 2⁻¹)).top_press)
      [unit_layer 1, unit_layer (1 * 2⁻¹)] =
      some (1, unit_layer (1 * 2⁻¹)) := by
  have hpw : List.Pairwise (fun A B => B.top_press < A.top_press)
      [unit_layer 1, unit_layer (1 * 2⁻¹)] := by
    refine List.pairwise_cons.mpr ⟨?_, List.pairwise_cons.mpr ⟨?_, List.Pairwise.nil⟩⟩
    · intro B hB
      simp only [List.mem_cons, List.not_mem_nil, or_false] at hB
      rw [hB, unit_layer_top, unit_layer_top]
      norm_num
    · intro B hB
      exact absurd hB (List.not_mem_nil B)
  exact C8_pressure_scan.2 [unit_layer 1, unit_layer (1 * 2⁻¹)] hpw 1 (by simp)

/-- C10: at the layer level only `get_temperature_by_altitude` checks its
domain — it returns a value exactly on `[-1e-10, height + 1e-10]` — while
`get_pressure_by_altitude` and `get_altitude_by_pressure` are total
functions: the pressure formula still returns a (positive) value at any
altitude where its power base is positive (negative altitudes included), and
for a query pressure above the base pressure the inverse returns a
(negative) altitude instead of failing. -/
theorem C10_layer_domain_checks :
    (∀ (L : ISALayer) (a : ℝ),
      (L.get_temperature_by_altitude a).isSome ↔ (-slack ≤ a ∧ a ≤ L.height + slack)) ∧
    (∀ (L : ISALayer) (a : ℝ), 0 < L.base_press → 0 < L.frac a →
      0 < L.get_pressure_by_altitude a) ∧
    (∀ (L : ISALayer) (q : ℝ), L.Pos → L.base_press < q →
      L.get_altitude_by_pressure q < 0) :=
  ⟨fun L a => L.temp_isSome_iff a,
    fun L a hp hf => L.press_pos hp hf,
    fun L q hP hq => L.alt_neg_of_press_gt_base hP hq⟩

/-- Witness for C10 at the concrete unit layer: the unchecked pressure
formula yields a positive value at altitude `-1/2`, and the unchecked
inverse yields a negative altitude at pressure `2 >` base pressure `1`. -/
theorem C10_witness :
    0 < (unit_layer 1).get_pressure_by_altitude (-(1 / 2)) ∧
    (unit_layer 1).get_altitude_by_pressure 2 < 0 := by
  constructor
  · apply C10_layer_domain_checks.2.1 (unit_layer 1) (-(1 / 2))
    · rw [(unit_layer_fields 1).2.2.1]
      norm_num
    · unfold ISALayer.frac
      rw [(unit_layer_fields 1).1, (unit_layer_fields 1).2.1, (unit_layer_fields 1).2.2.2.2]
      norm_num
  · apply C10_layer_domain_checks.2.2 (unit_layer 1) 2 (unit_layer_pos 1 (by norm_num))
    rw [(unit_layer_fields 1).2.2.1]
    norm_num

/-- C7: for every model with at least one layer (all heights positive, per
the data-model invariant), temperature and pressure queries at global
altitude `0` and at exactly `totalHeight()` succeed, while a query at
`totalHeight() + 1` fails. -/
theorem C7_boundary_queries (M : ISAModel) (hne : M.layers ≠ [])
    (hpos : ∀ L ∈ M.layers, 0 < L.height) :
    (∃ t, M.get_temperature_by_altitude 0 = some t) ∧
    (∃ p, M.get_pressure_by_altitude 0 = some p) ∧
    (∃ t, M.get_temperature_by_altitude M.height = some t) ∧
    (∃ p, M.get_pressure_by_altitude M.height = some p) ∧
    M.get_temperature_by_altitude (M.height + 1) = none ∧
    M.get_pressure_by_altitude (M.height + 1) = none := by
  obtain ⟨ls⟩ := M
  cases ls with
  | nil => exact absurd rfl hne
  | cons L rest =>
    have hL : 0 < L.height := hpos L (List.mem_cons_self _ _)
    have hz := @model_at_zero L rest hL
    have htot := model_at_total (ISAModel.mk (L :: rest)) (by simp) hpos
    have habove := model_queries_none_above (ISAModel.mk (L :: rest))
      (fun X hX => le_of_lt (hpos X hX))
      (show (ISAModel.mk (L :: rest)).height < (ISAModel.mk (L :: rest)).height + 1 by
        linarith)
    exact ⟨⟨L.tbot, hz.1⟩, ⟨L.base_press, hz.2⟩, htot.1, htot.2, habove.1, habove.2⟩

/-- Witness for C7 on the one-layer model. -/
theorem C7_witness :
    (∃ t, (ISAModel.mk [unit_layer 1]).get_temperature_by_altitude 0 = some t) ∧
    (∃ p, (ISAModel.mk [unit_layer 1]).get_pressure_by_altitude 0 = some p) ∧
    (∃ t, (ISAModel.mk [unit_layer 1]).get_temperature_by_altitude
      (ISAModel.mk [unit_layer 1]).height = some t) ∧
    (∃ p, (ISAModel.mk [unit_layer 1]).get_pressure_by_altitude
      (ISAModel.mk [unit_layer 1]).height = some p) ∧
    (ISAModel.mk [unit_layer 1]).get_temperature_by_altitude
      ((ISAModel.mk [unit_layer 1]).height + 1) = none ∧
    (ISAModel.mk [unit_layer 1]).get_pressure_by_altitude
      ((ISAModel.mk [unit_layer 1]).height + 1) = none := by
  apply C7_boundary_queries
  · simp
  · intro L hL
    simp only [List.mem_cons, List.not_mem_nil, or_false] at hL
    rw [hL]
    exact (unit_layer_pos 1 (by norm_num)).1

/-- C9: the standard configuration at altitude `0` returns temperature
exactly `292.15` and pressure exactly `101325`. -/
theorem C9_standard_sea_level :
    ISAModel.standard_config.bind (fun M => M.get_temperature_by_altitude 0) =
      some 292.15 ∧
    ISAModel.standard_config.bind (fun M => M.get_pressure_by_altitude 0) =
      some 101325 := by
  obtain ⟨M, hM, _, _, t, hhead⟩ := standard_config_spec
  obtain ⟨ls⟩ := M
  have hls : ls = ISALayer.make 11.019 (-6.5) (273.15 + 19.0) 101325 0.28704 :: t := hhead
  subst hls
  rw [hM]
  have hh : (0 : ℝ) ≤ (ISALayer.make 11.019 (-6.5) (273.15 + 19.0) 101325 0.28704).height := by
    rw [show (ISALayer.make 11.019 (-6.5) (273.15 + 19.0) 101325 0.28704).height =
      11.019 from rfl]
    norm_num
  constructor
  · rw [Option.some_bind, model_temp_cons_le hh,
      ISALayer.temp_some_of_mem _ (le_refl 0) hh, zero_div, mul_zero, add_zero]
    rw [show (ISALayer.make 11.019 (-6.5) (273.15 + 19.0) 101325 0.28704).tbot =
      273.15 + 19.0 from rfl]
    norm_num
  · rw [Option.some_bind, model_press_cons_le hh, ISALayer.press_at_zero]
    rfl

/-- C5: adding a layer with omitted base values appends a layer whose base
temperature and base pressure are the previous last layer's top-of-layer
temperature and pressure (first conjunct); consequently in the standard
configuration every pair of consecutive layers is boundary matched: the
temperature and pressure of the lower layer at its top equal those of the
upper layer at its bottom (second conjunct). -/
theorem C5_layer_continuity :
    (∀ (M : ISAModel) (L : ISALayer) (h lr : ℝ),
      M.layers.getLast? = some L → 0 ≤ L.height →
        ∃ bt, L.get_temperature_by_altitude L.height = some bt ∧
          M.add_layer h lr none none =
            some (ISAModel.mk (M.layers ++
              [ISALayer.make h lr bt (L.get_pressure_by_altitude L.height) 0.28704]))) ∧
    (∃ M, ISAModel.standard_config = some M ∧
      List.Chain' boundary_matched M.layers) := by
  constructor
  · intro M L h lr hL hh
    exact add_layer_none_none M L hL hh h lr
  · obtain ⟨M, hM, _, hch, _⟩ := standard_config_spec
    exact ⟨M, hM, hch⟩

/-- Witness for C5: appending to the one-layer model with omitted base
values uses the unit layer's top conditions. -/
theorem C5_witness :
    ∃ bt, (unit_layer 1).get_temperature_by_altitude (unit_layer 1).height = some bt ∧
      (ISAModel.mk [unit_layer 1]).add_layer 2 3 none none =
        some (ISAModel.mk ([unit_layer 1] ++
          [ISALayer.make 2 3 bt
            ((unit_layer 1).get_pressure_by_altitude (unit_layer 1).height) 0.28704])) :=
  C5_layer_continuity.1 (ISAModel.mk [unit_layer 1]) (unit_layer 1) 2 3 rfl
    (by rw [(unit_layer_fields 1).1]; norm_num)

lemma model_temp_by_press_none (M : ISAModel) {q : ℝ}
    (h : find_layer_press q M.layers = none) :
    M.get_temperature_by_pressure q = none := by
  unfold ISAModel.get_temperature_by_pressure
  rw [h]

lemma model_alt_by_press_none (M : ISAModel) {q : ℝ}
    (h : find_layer_press q M.layers = none) :
    M.get_altitude_by_pressure q = none := by
  unfold ISAModel.get_altitude_by_pressure
  rw [h]
  rfl

/-- The layer temperature assert fails (beyond tolerance) below the layer
bottom. -/
lemma ISALayer.temp_none_of_lt (L : ISALayer) {a : ℝ} (h : a < -slack) :
    L.get_temperature_by_altitude a = none := by
  unfold ISALayer.get_temperature_by_altitude
  rw [if_neg]
  intro hc
  exact absurd hc.1 (not_le.mpr h)

lemma model_temp_by_press_cons_le {q : ℝ} {L : ISALayer} {rest : List ISALayer}
    (hc : L.top_press ≤ q) :
    (ISAModel.mk (L :: rest)).get_temperature_by_pressure q =
      L.get_temperature_by_pressure q := by
  unfold ISAModel.get_temperature_by_pressure
  rw [find_layer_press_cons_le hc]

/-- C2 counterexample: on a one-layer model, the pressure query at the
negative altitude `-1/2` and the altitude query at pressure `2` (above the
bottom layer's base pressure `1`) both succeed with extrapolated values
instead of failing with an out-of-range error. -/
theorem C2_counterexample :
    ((-(1 / 2) : ℝ) < 0) ∧
    (ISAModel.mk [unit_layer 1]).get_pressure_by_altitude (-(1 / 2)) = some 2 ∧
    (unit_layer 1).base_press < 2 ∧
    (ISAModel.mk [unit_layer 1]).get_altitude_by_pressure 2 = some (-(1 / 2)) := by
  refine ⟨by norm_num, ?_, ?_, ?_⟩
  · rw [model_press_cons_le (by rw [(unit_layer_fields 1).1]; norm_num :
      (-(1 / 2) : ℝ) ≤ (unit_layer 1).height)]
    rw [unit_layer_press]
    norm_num
  · rw [(unit_layer_fields 1).2.2.1]
    norm_num
  · rw [model_alt_cons_le (by rw [unit_layer_top]; norm_num :
      (unit_layer 1).top_press ≤ 2)]
    rw [unit_layer_alt]
    norm_num

/-- C2 (amended): queries above the model top do fail — an altitude above
`totalHeight()` and a pressure below every layer's top pressure each yield
the out-of-range error (first two conjuncts) — but queries below the model
bottom do not all fail: at a negative altitude the pressure query returns an
extrapolated value above the base pressure, and at a pressure above layer
0's base pressure the altitude query returns a negative altitude (third and
fourth conjuncts).  The temperature queries are the only ones that fail
below the bottom, through the layer's bound check, and only beyond its
`1e-10` slack: `temperatureAtAltitude` fails for altitudes below `-1e-10`
(fifth conjunct) and `temperatureAtPressure` fails whenever the computed
local altitude falls below `-1e-10` (sixth conjunct). -/
theorem C2_failure_policy :
    (∀ (M : ISAModel), (∀ L ∈ M.layers, 0 ≤ L.height) →
      ∀ a : ℝ, M.height < a →
        M.get_temperature_by_altitude a = none ∧
          M.get_pressure_by_altitude a = none) ∧
    (∀ (M : ISAModel) (q : ℝ), (∀ L ∈ M.layers, q < L.top_press) →
      M.get_temperature_by_pressure q = none ∧
        M.get_altitude_by_pressure q = none) ∧
    (∀ (L : ISALayer) (rest : List ISALayer) (a : ℝ),
      L.Pos → a < 0 → 0 < L.frac a →
        ∃ v, (ISAModel.mk (L :: rest)).get_pressure_by_altitude a = some v ∧
          L.base_press < v) ∧
    (∀ (L : ISALayer) (rest : List ISALayer) (q : ℝ),
      L.Pos → L.base_press < q →
        ∃ v, (ISAModel.mk (L :: rest)).get_altitude_by_pressure q = some v ∧
          v < 0) ∧
    (∀ (L : ISALayer) (rest : List ISALayer) (a : ℝ),
      0 ≤ L.height → a < -slack →
        (ISAModel.mk (L :: rest)).get_temperature_by_altitude a = none) ∧
    (∀ (L : ISALayer) (rest : List ISALayer) (q : ℝ),
      L.Pos → L.base_press < q → L.get_altitude_by_pressure q < -slack →
        (ISAModel.mk (L :: rest)).get_temperature_by_pressure q = none) := by
  have htop_le_of_gt : ∀ (L : ISALayer) (q : ℝ), L.Pos → L.base_press < q →
      L.top_press ≤ q := by
    intro L q hP hq
    have h1 : L.get_pressure_by_altitude L.height ≤ L.get_pressure_by_altitude 0 :=
      L.press_antitone hP (le_refl 0) (le_of_lt hP.1)
    rw [L.press_at_zero] at h1
    unfold ISALayer.top_press
    linarith
  refine ⟨?_, ?_, ?_, ?_, ?_, ?_⟩
  · intro M hpos a ha
    exact model_queries_none_above M hpos ha
  · intro M q hq
    have hnone := find_layer_press_none M.layers q hq
    exact ⟨model_temp_by_press_none M hnone, model_alt_by_press_none M hnone⟩
  · intro L rest a hP ha hf
    refine ⟨L.get_pressure_by_altitude a,
      model_press_cons_le (by linarith [hP.1] : a ≤ L.height), ?_⟩
    exact L.press_gt_base_of_neg hP ha hf
  · intro L rest q hP hq
    refine ⟨L.get_altitude_by_pressure q, model_alt_cons_le (htop_le_of_gt L q hP hq), ?_⟩
    exact L.alt_neg_of_press_gt_base hP hq
  · intro L rest a hh ha
    have ha' : a ≤ L.height := by
      have := slack_pos
      linarith
    rw [model_temp_cons_le ha']
    exact L.temp_none_of_lt ha
  · intro L rest q hP hq halt
    rw [model_temp_by_press_cons_le (htop_le_of_gt L q hP hq)]
    unfold ISALayer.get_temperature_by_pressure
    exact L.temp_none_of_lt halt

/-- Witness for the amended C2: on the one-layer model, pressure `2` above
the base pressure yields a negative altitude without error, while the
temperature query at pressure `3` (computed local altitude `-2/3`, beyond
the slack) fails. -/
theorem C2_witness :
    (∃ v, (ISAModel.mk [unit_layer 1]).get_altitude_by_pressure 2 = some v ∧ v < 0) ∧
    (ISAModel.mk [unit_layer 1]).get_temperature_by_pressure 3 = none := by
  constructor
  · exact C2_failure_policy.2.2.2.1 (unit_layer 1) [] 2 (unit_layer_pos 1 (by norm_num))
      (by rw [(unit_layer_fields 1).2.2.1]; norm_num)
  · apply C2_failure_policy.2.2.2.2.2 (unit_layer 1) [] 3
      (unit_layer_pos 1 (by norm_num))
    · rw [(unit_layer_fields 1).2.2.1]
      norm_num
    · rw [unit_layer_alt]
      unfold slack
      norm_num
